import Mathlib

set_option autoImplicit false

namespace EasyTorchSpec

/-! Shallow embedding of the `easytorch` orchestration layer
(`src/easytorch/easytorch.py`, `src/easytorch/trainer.py`,
`src/easytorch/config/__init__.py`).  Python dictionaries are modelled as
association lists with first-match lookup and in-place update (Python dicts
have unique keys and preserve insertion order); Python float scores are
modelled as rationals. -/

/-- Model of a Python runtime value as far as the configuration code needs it:
`None`, booleans, integers, rationals, strings and (int/float) lists. -/
inductive PyVal where
  | none
  | bool (b : Bool)
  | int (n : ℤ)
  | rat (q : ℚ)
  | str (s : String)
  | intList (l : List ℤ)
  | ratList (l : List ℚ)
deriving DecidableEq, Repr

/-- Python truthiness (`if x:`): `None`, `False`, `0`, `0.0`, `""` and `[]`
are falsy, everything else is truthy. -/
def PyVal.truthy : PyVal → Bool
  | .none => false
  | .bool b => b
  | .int n => decide (n ≠ 0)
  | .rat q => decide (q ≠ 0)
  | .str s => decide (s ≠ "")
  | .intList l => !l.isEmpty
  | .ratList l => !l.isEmpty

/-- A Python dict with string keys, as an association list (unique keys,
insertion order). -/
abbrev Config := List (String × PyVal)

/-- `d[k] = v` / `d.update(k=v)` on a dict: replace the first binding of `k`,
or append a new binding at the end. -/
def updateKey : Config → String → PyVal → Config
  | [], k, v => [(k, v)]
  | (k', v') :: rest, k, v =>
      if k' = k then (k', v) :: rest else (k', v') :: updateKey rest k v

/-- `d.update(**kw)`: apply each keyword binding in order. -/
def updateAll (cfg : Config) (kw : Config) : Config :=
  kw.foldl (fun c p => updateKey c p.1 p.2) cfg

/-- `d.get(k)` / `d[k]`: first binding of `k`, if any. -/
def lookupC : Config → String → Option PyVal
  | [], _ => Option.none
  | (k', v') :: rest, k => if k' = k then Option.some v' else lookupC rest k

/-- The explicit named constructor parameters of `EasyTorch.__init__`
(src/easytorch/easytorch.py lines 46-64), each defaulting to Python `None`.
`splitRatio` models the source parameter `split_ratio`. -/
structure CtorParams where
  phase : PyVal
  batch_size : PyVal
  epochs : PyVal
  learning_rate : PyVal
  gpus : PyVal
  pin_memory : PyVal
  num_workers : PyVal
  dataset_dir : PyVal
  load_limit : PyVal
  log_dir : PyVal
  pretrained_path : PyVal
  verbose : PyVal
  seed : PyVal
  force : PyVal
  patience : PyVal
  load_sparse : PyVal
  num_folds : PyVal
  splitRatio : PyVal
deriving DecidableEq, Repr

/-- All constructor parameters left at their Python default `None`. -/
def defaultCtorParams : CtorParams :=
  ⟨.none, .none, .none, .none, .none, .none, .none, .none, .none,
   .none, .none, .none, .none, .none, .none, .none, .none, .none⟩

/-- The named parameters paired with their config keys, in the exact order the
constructor applies them (easytorch.py lines 67-84). -/
def namedParams (p : CtorParams) : List (String × PyVal) :=
  [("phase", p.phase), ("batch_size", p.batch_size), ("epochs", p.epochs),
   ("learning_rate", p.learning_rate), ("gpus", p.gpus),
   ("pin_memory", p.pin_memory), ("num_workers", p.num_workers),
   ("dataset_dir", p.dataset_dir), ("load_limit", p.load_limit),
   ("log_dir", p.log_dir), ("pretrained_path", p.pretrained_path),
   ("verbose", p.verbose), ("seed", p.seed), ("force", p.force),
   ("patience", p.patience), ("load_sparse", p.load_sparse),
   ("num_folds", p.num_folds), ("split_ratio", p.splitRatio)]

/-- One `if x: self.args.update(key=x)` line of the constructor: the update is
applied only when the supplied value is truthy. -/
def condUpdate (cfg : Config) (kv : String × PyVal) : Config :=
  if kv.2.truthy then updateKey cfg kv.1 kv.2 else cfg

/-- EasyTorch.__init__ argument merging (easytorch.py lines 66-85): start from
the base mapping, apply each `if param: self.args.update(param=param)` line in
source order, then `self.args.update(**kw)`. -/
def initArgs (base : Config) (p : CtorParams) (kw : Config) : Config :=
  updateAll ((namedParams p).foldl condUpdate base) kw

/-- Whether the second character list is an initial segment of the first
(structural recursion, so that concrete instances evaluate in the kernel). -/
def leadsWith : List Char → List Char → Bool
  | _, [] => true
  | [], _ :: _ => false
  | c :: cs, d :: ds => c = d && leadsWith cs ds

/-- `s.startswith(pat)` on strings. -/
def strStarts (s pat : String) : Bool :=
  leadsWith s.toList pat.toList

/-- `s.endswith(pat)` on strings. -/
def strEnds (s pat : String) : Bool :=
  leadsWith s.toList.reverse pat.toList.reverse

/-- Python substring containment `pat in s`: some suffix of `s` starts with
`pat`. -/
def subOccurs : List Char → List Char → Bool
  | [], pat => pat.isEmpty
  | s@(_ :: rest), pat => leadsWith s pat || subOccurs rest pat

/-- Python `pat in s` on strings. -/
def pyContains (s pat : String) : Bool :=
  subOccurs s.toList pat.toList

/-- Two-argument POSIX `os.path.join`: an absolute second component wins;
otherwise concatenate, inserting a separator unless the first part is empty or
already ends with one. -/
def pathJoin (a b : String) : String :=
  if strStarts b "/" then b
  else if a = "" || strEnds a "/" then a ++ b
  else a ++ "/" ++ b

/-- A dataset spec: a dict from string keys to string values (the entries the
directory-qualification loop touches). -/
abbrev Dspec := List (String × String)

/-- EasyTorch._init_dataspecs_ body for one spec (easytorch.py lines 119-122):
`for k in dspec: if 'dir' in k: dspec[k] = os.path.join(dataset_dir, dspec[k])`. -/
def initDataspec (dataset_dir : String) (dspec : Dspec) : Dspec :=
  dspec.map (fun p => if pyContains p.1 "dir" then (p.1, pathJoin dataset_dir p.2) else p)

/-- Lookup in a dataset spec. -/
def lookupS : Dspec → String → Option String
  | [], _ => Option.none
  | (k', v') :: rest, k => if k' = k then Option.some v' else lookupS rest k

/-- The `load_sparse` loop of `EasyTorch._get_test_dataset` (easytorch.py
lines 155-160): walk the fold's test files, stop once the accumulated list has
reached `load_limit`, and otherwise append a fresh single-file dataset. -/
def sparseLoop (load_limit : ℕ) : List String → List (List String) → List (List String)
  | [], acc => acc
  | f :: rest, acc =>
      if load_limit ≤ acc.length then acc
      else sparseLoop load_limit rest (acc ++ [[f]])

/-- EasyTorch._get_test_dataset (easytorch.py lines 147-167), with a dataset
modelled by its file list: sparse mode builds one single-file dataset per test
file (capped by `load_limit`); otherwise one dataset holds the whole list. -/
def getTestDatasetList (load_sparse : Bool) (load_limit : ℕ)
    (testFiles : List String) : List (List String) :=
  if load_sparse then sparseLoop load_limit testFiles []
  else [testFiles]

/-- The configured metric direction (`cache['metric_direction']`). -/
inductive MetricDir where
  | maximize
  | minimize
deriving DecidableEq, Repr

/-- The best-score bookkeeping slice of the trainer cache:
`cache['best_score']` and `cache['best_epoch']`. -/
structure BestCache where
  best_score : ℚ
  best_epoch : ℕ
deriving DecidableEq, Repr

/-- ETTrainer.save_if_better (trainer.py lines 215-232), after the monitored
score `sc` has been read off the metrics object: when
`(direction == 'maximize' and sc >= best_score) or (direction == 'minimize'
and sc <= best_score)` the checkpoint is persisted and the cached best
score/epoch are updated; the Bool records whether that happened. -/
def save_if_better (dir : MetricDir) (c : BestCache) (epoch : ℕ) (sc : ℚ) :
    BestCache × Bool :=
  if (dir = MetricDir.maximize ∧ sc ≥ c.best_score) ∨
      (dir = MetricDir.minimize ∧ sc ≤ c.best_score) then
    (⟨sc, epoch⟩, true)
  else
    (c, false)

/-- ETTrainer._early_stopping (trainer.py lines 338-346):
`ep - self.cache['best_epoch'] >= patience` (integer arithmetic). -/
def early_stopping (patience : ℕ) (best_epoch ep : ℕ) : Bool :=
  decide ((patience : ℤ) ≤ (ep : ℤ) - (best_epoch : ℤ))

/-- Initial best-score bookkeeping (easytorch.py lines 212-214):
`best_epoch=0, best_score=0.0`, replaced by `1e11` when minimizing. -/
def initCache (dir : MetricDir) : BestCache :=
  match dir with
  | .maximize => ⟨0, 0⟩
  | .minimize => ⟨100000000000, 0⟩

/-- The best-score bookkeeping state after epochs `1..ep` of the train loop
have each run `save_if_better(ep, val_metric)`, where `scores ep` is the
monitored validation score of epoch `ep`.  (The bookkeeping evolution does not
depend on the early-stopping check, which only breaks the loop.) -/
def cacheAt (dir : MetricDir) (scores : ℕ → ℚ) : ℕ → BestCache
  | 0 => initCache dir
  | ep + 1 => (save_if_better dir (cacheAt dir scores ep) (ep + 1) (scores (ep + 1))).1

/-- The epoch loop of ETTrainer.train (trainer.py lines 353-393) reduced to its
best-score bookkeeping: at epoch `ep` run `save_if_better`, then break when
`_early_stopping` fires.  Returns the last executed epoch (`ep - 1` when the
remaining epoch budget `fuel` is exhausted before epoch `ep` runs). -/
def trainLoop (dir : MetricDir) (patience : ℕ) (scores : ℕ → ℚ) :
    BestCache → ℕ → ℕ → ℕ
  | _, ep, 0 => ep - 1
  | c, ep, fuel + 1 =>
      if early_stopping patience ((save_if_better dir c ep (scores ep)).1).best_epoch ep
      then ep
      else trainLoop dir patience scores ((save_if_better dir c ep (scores ep)).1) (ep + 1) fuel

/-- The last epoch executed by `for ep in range(1, epochs + 1)` of
ETTrainer.train, starting from the per-fold initial cache. -/
def trainLastEpoch (dir : MetricDir) (patience : ℕ) (scores : ℕ → ℚ)
    (epochs : ℕ) : ℕ :=
  trainLoop dir patience scores (initCache dir) 1 epochs

/-- Whether the early-stopping check fires at the end of epoch `ep` (after that
epoch's `save_if_better`). -/
def stopAt (dir : MetricDir) (patience : ℕ) (scores : ℕ → ℚ) (ep : ℕ) : Bool :=
  early_stopping patience (cacheAt dir scores ep).best_epoch ep

/-- A persisted checkpoint (trainer.py save_checkpoint lines 170-184): a dict
with a `source` tag and, when the corresponding loops ran at least once,
`models` / `optimizers` entries mapping names to state dicts (state dicts are
modelled abstractly by a type `σ`). -/
structure Checkpoint (σ : Type) where
  source : String
  models : Option (List (String × σ))
  optimizers : Option (List (String × σ))
deriving DecidableEq, Repr

/-- One of the two accumulation loops of ETTrainer.save_checkpoint
(`for k in self.nn: checkpoint['models'] = dict(); checkpoint['models'][k] = ...`):
each iteration first rebinds the entry to a fresh empty dict and then inserts
the current key's state, so the entry after the loop holds exactly the last
(key, state) pair, and is absent when the loop never ran. -/
def saveEntryLoop {σ : Type} (tracked : List (String × σ)) :
    Option (List (String × σ)) :=
  tracked.foldl (fun _ kv => Option.some [(kv.1, kv.2)]) Option.none

/-- ETTrainer.save_checkpoint (trainer.py lines 170-184): build
`\x7b'source': src\x7d`, run the models loop over `self.nn`, then the optimizers
loop over `self.optimizer`. -/
def save_checkpoint {σ : Type} (src : String) (nn optim : List (String × σ)) :
    Checkpoint σ :=
  ⟨src, saveEntryLoop nn, saveEntryLoop optim⟩

/-- Replace the state stored under a key (`self.nn[m].load_state_dict(...)`). -/
def setKey {σ : Type} : List (String × σ) → String → σ → List (String × σ)
  | [], _, _ => []
  | (k', v') :: rest, k, v =>
      if k' = k then (k', v) :: rest else (k', v') :: setKey rest k v

/-- `for m in chk['models']: self.nn[m].load_state_dict(chk['models'][m])`:
restore each checkpointed entry into the target mapping; a name missing from
the target raises (modelled as `none`). -/
def loadEntries {σ : Type} (target : List (String × σ))
    (entries : List (String × σ)) : Option (List (String × σ)) :=
  entries.foldlM
    (fun acc kv =>
      if acc.any (fun p => p.1 = kv.1) then Option.some (setKey acc kv.1 kv.2)
      else Option.none)
    target

/-- ASCII lowercase of one character (structural, kernel-reducible). -/
def charLower (c : Char) : Char :=
  if 'A' ≤ c ∧ c ≤ 'Z' then Char.ofNat (c.toNat + 32) else c

/-- Python `s.lower()` (ASCII range suffices for the `source` tags used). -/
def strLower (s : String) : String :=
  ⟨s.toList.map charLower⟩

/-- The `source == 'easytorch'` branch of ETTrainer.load_checkpoint
(trainer.py lines 83-94), which is the branch taken for checkpoints written by
`save_checkpoint` with the default tag: restore every entry of `chk['models']`
into `self.nn` and every entry of `chk['optimizers']` into `self.optimizer`
(a missing dict entry or unknown name raises, modelled as `none`).  The other
branch handles foreign raw state dicts and is not reachable here. -/
def load_checkpoint_et {σ : Type} (chk : Checkpoint σ)
    (nn optim : List (String × σ)) :
    Option (List (String × σ) × List (String × σ)) :=
  if strLower chk.source = "easytorch" then
    match chk.models, chk.optimizers with
    | Option.some ms, Option.some os =>
        match loadEntries nn ms, loadEntries optim os with
        | Option.some nn', Option.some os' => Option.some (nn', os')
        | _, _ => Option.none
    | _, _ => Option.none
  else Option.none

/-- The GPU-clamping step of EasyTorch.__init__ (easytorch.py lines 93-95):
`if self.args['verbose'] and len(self.args['gpus']) > num_gpus:` warn and set
`self.args['gpus'] = list(range(num_gpus))`; otherwise the list is left
unchanged.  The step is total: it never raises. -/
def clampGpus (verbose : Bool) (num_gpus : ℕ) (gpus : List ℕ) : List ℕ :=
  if verbose && decide (num_gpus < gpus.length) then List.range num_gpus
  else gpus

/-- Observable actions a spawned worker performs. -/
inductive WorkerAct where
  | printMsg
  | initProcessGroup
  | runFold
deriving DecidableEq, Repr

/-- The module-level function `test(i, a)` (easytorch.py lines 29-30): it just
prints its arguments. -/
def testWorker : List WorkerAct := [WorkerAct.printMsg]

/-- The module-level function `job(gpu, ...)` (easytorch.py lines 18-27): it
calls `dist.init_process_group(...)` and then `et_obj._run(...)`.  It is
defined in the source but never passed to `mp.spawn`. -/
def jobWorker : List WorkerAct := [WorkerAct.initProcessGroup, WorkerAct.runFold]

/-- EasyTorch.run for one dataset spec (easytorch.py lines 274-279): when
`use_ddp` is set it spawns `test` (the print stub) with
`nprocs=self.args['num_gpus']` and args `('HI There',)`; otherwise it calls
`self._run(...)` directly.  Result: the per-worker action traces. -/
def runDispatch (use_ddp : Bool) (num_gpus : ℕ) : List (List WorkerAct) :=
  if use_ddp then (List.range num_gpus).map (fun _ => testWorker)
  else [[WorkerAct.runFold]]

/-- Modelled from the spec: the metrics accumulator class
`easytorch.metrics.metrics.Prf1a` is not under `src/` (trainer.py only
constructs it in `new_metrics`).  Per spec sections 3 and 4.1 it accumulates
confusion-matrix counts (true/false positives/negatives). -/
structure Prf1a where
  tp : ℕ
  fp : ℕ
  tn : ℕ
  fn : ℕ
deriving DecidableEq, Repr

/-- Modelled from the spec: `new()` returns a zeroed instance. -/
def Prf1a.new : Prf1a := ⟨0, 0, 0, 0⟩

/-- Modelled from the spec: `accumulate(other)` merges another instance of the
same kind into self by adding its counts. -/
def Prf1a.accumulate (a b : Prf1a) : Prf1a :=
  ⟨a.tp + b.tp, a.fp + b.fp, a.tn + b.tn, a.fn + b.fn⟩

/-- `metrics_eps = 10e-5` (config/__init__.py). -/
def metricsEps : ℚ := 10 / 100000

/-- Modelled from the spec: precision computed from accumulated counts with
epsilon added to the denominator. -/
def Prf1a.precision (m : Prf1a) : ℚ :=
  (m.tp : ℚ) / ((m.tp : ℚ) + (m.fp : ℚ) + metricsEps)

/-- Modelled from the spec: recall computed from accumulated counts with
epsilon added to the denominator. -/
def Prf1a.recall (m : Prf1a) : ℚ :=
  (m.tp : ℚ) / ((m.tp : ℚ) + (m.fn : ℚ) + metricsEps)

/-- Modelled from the spec: F1 as the harmonic mean of precision and recall
with epsilon added to the denominator. -/
def Prf1a.f1 (m : Prf1a) : ℚ :=
  2 * m.precision * m.recall / (m.precision + m.recall + metricsEps)

/-- Modelled from the spec: accuracy computed from accumulated counts with
epsilon added to the denominator. -/
def Prf1a.accuracy (m : Prf1a) : ℚ :=
  ((m.tp : ℚ) + (m.tn : ℚ)) /
    ((m.tp : ℚ) + (m.fp : ℚ) + (m.tn : ℚ) + (m.fn : ℚ) + metricsEps)

/-- The slice of a user iteration result the accumulation step reads:
`it.get('metrics')` (with `none` covering a missing or falsy entry, as tested
by `if not it.get('metrics'):`) and `it['averages']` (whose absence raises a
KeyError, modelled as `none` on access).  Metrics and averages objects are
abstract types `μ` and `α`. -/
structure ItResult (μ α : Type) where
  metrics : Option μ
  averages : Option α

/-- The fallback in ETTrainer.evaluation (trainer.py lines 292-293) and
ETTrainer.train (lines 365-366): `if not it.get('metrics'):
it['metrics'] = _base_metrics.ETMetrics()` substitutes a fresh zeroed base
metrics object. -/
def fixupMetrics {μ α : Type} (zeroed : μ) (it : ItResult μ α) : ItResult μ α :=
  match it.metrics with
  | Option.none => ⟨Option.some zeroed, it.averages⟩
  | Option.some m => ⟨Option.some m, it.averages⟩

/-- The per-batch accumulation step shared by train (lines 364-369) and
evaluation (lines 291-296): apply the metrics fallback, then accumulate the
iteration's metrics and averages into the running accumulators; accessing a
missing `averages` entry raises (modelled as `none`). -/
def accumStep {μ α : Type} (zeroed : μ) (accM : μ → μ → μ) (accA : α → α → α)
    (m : μ) (a : α) (it : ItResult μ α) : Option (μ × α) :=
  let it' := fixupMetrics zeroed it
  match it'.metrics, it'.averages with
  | Option.some im, Option.some ia => Option.some (accM m im, accA a ia)
  | _, _ => Option.none

/-! Helper lemmas about the dict model. -/

theorem updateAll_nil (c : Config) : updateAll c [] = c := rfl

theorem updateAll_cons (c : Config) (p : String × PyVal) (rest : Config) :
    updateAll c (p :: rest) = updateAll (updateKey c p.1 p.2) rest := rfl

theorem lookupC_updateKey_self (c : Config) (k : String) (v : PyVal) :
    lookupC (updateKey c k v) k = Option.some v := by
  induction c with
  | nil => simp [updateKey, lookupC]
  | cons p rest ih =>
      obtain ⟨k', v'⟩ := p
      by_cases h : k' = k
      · subst h
        simp [updateKey, lookupC]
      · simp [updateKey, lookupC, h, ih]

theorem lookupC_updateKey_ne (c : Config) (k k' : String) (v : PyVal)
    (h : k' ≠ k) :
    lookupC (updateKey c k' v) k = lookupC c k := by
  induction c with
  | nil => simp [updateKey, lookupC, h]
  | cons p rest ih =>
      obtain ⟨k'', v''⟩ := p
      by_cases h2 : k'' = k'
      · subst h2
        simp [updateKey, lookupC, h]
      · simp [updateKey, lookupC, h2, ih]

theorem lookupC_updateAll_notmem (kw : Config) (c : Config) (k : String)
    (h : k ∉ kw.map Prod.fst) :
    lookupC (updateAll c kw) k = lookupC c k := by
  induction kw generalizing c with
  | nil => rfl
  | cons p rest ih =>
      simp only [List.map_cons, List.mem_cons, not_or] at h
      rw [updateAll_cons, ih _ h.2, lookupC_updateKey_ne _ _ _ _ (Ne.symm h.1)]

theorem lookupC_updateAll_mem (kw : Config) (c : Config) (k : String) (v : PyVal)
    (hnd : (kw.map Prod.fst).Nodup) (hm : (k, v) ∈ kw) :
    lookupC (updateAll c kw) k = Option.some v := by
  induction kw generalizing c with
  | nil => cases hm
  | cons p rest ih =>
      simp only [List.map_cons, List.nodup_cons] at hnd
      rw [updateAll_cons]
      rcases List.mem_cons.mp hm with he | hm'
      · have hk : k ∉ rest.map Prod.fst := by
          rw [← he] at hnd
          exact hnd.1
        rw [lookupC_updateAll_notmem rest _ k hk, ← he, lookupC_updateKey_self]
      · exact ih _ hnd.2 hm'

theorem lookupC_condFold_notmem (l : List (String × PyVal)) (c : Config)
    (k : String) (h : k ∉ l.map Prod.fst) :
    lookupC (l.foldl condUpdate c) k = lookupC c k := by
  induction l generalizing c with
  | nil => rfl
  | cons p rest ih =>
      simp only [List.map_cons, List.mem_cons, not_or] at h
      rw [List.foldl_cons, ih _ h.2]
      unfold condUpdate
      by_cases ht : p.2.truthy = true
      · rw [if_pos ht, lookupC_updateKey_ne _ _ _ _ (Ne.symm h.1)]
      · rw [if_neg ht]

theorem lookupC_condFold_mem_truthy (l : List (String × PyVal)) (c : Config)
    (k : String) (v : PyVal) (hnd : (l.map Prod.fst).Nodup) (hm : (k, v) ∈ l)
    (ht : v.truthy = true) :
    lookupC (l.foldl condUpdate c) k = Option.some v := by
  induction l generalizing c with
  | nil => cases hm
  | cons p rest ih =>
      simp only [List.map_cons, List.nodup_cons] at hnd
      rw [List.foldl_cons]
      rcases List.mem_cons.mp hm with he | hm'
      · have hk : k ∉ rest.map Prod.fst := by
          rw [← he] at hnd
          exact hnd.1
        rw [lookupC_condFold_notmem rest _ k hk, ← he]
        unfold condUpdate
        simp [ht, lookupC_updateKey_self]
      · exact ih _ hnd.2 hm'

theorem lookupC_condFold_mem_falsy (l : List (String × PyVal)) (c : Config)
    (k : String) (v : PyVal) (hnd : (l.map Prod.fst).Nodup) (hm : (k, v) ∈ l)
    (ht : v.truthy = false) :
    lookupC (l.foldl condUpdate c) k = lookupC c k := by
  induction l generalizing c with
  | nil => rfl
  | cons p rest ih =>
      simp only [List.map_cons, List.nodup_cons] at hnd
      rw [List.foldl_cons]
      rcases List.mem_cons.mp hm with he | hm'
      · have hk : k ∉ rest.map Prod.fst := by
          rw [← he] at hnd
          exact hnd.1
        rw [lookupC_condFold_notmem rest _ k hk, ← he]
        unfold condUpdate
        simp [ht]
      · have hk : p.1 ≠ k := by
          intro hh
          apply hnd.1
          rw [hh]
          exact List.mem_map.mpr ⟨(k, v), hm', rfl⟩
        rw [ih _ hnd.2 hm']
        unfold condUpdate
        by_cases htp : p.2.truthy = true
        · rw [if_pos htp, lookupC_updateKey_ne _ _ _ _ hk]
        · rw [if_neg htp]

theorem initDataspec_cons (root k' v' : String) (rest : Dspec) :
    initDataspec root ((k', v') :: rest)
      = (if pyContains k' "dir" = true then (k', pathJoin root v') else (k', v'))
          :: initDataspec root rest := rfl

theorem namedParams_keys (p : CtorParams) :
    (namedParams p).map Prod.fst =
      ["phase", "batch_size", "epochs", "learning_rate", "gpus", "pin_memory",
       "num_workers", "dataset_dir", "load_limit", "log_dir", "pretrained_path",
       "verbose", "seed", "force", "patience", "load_sparse", "num_folds",
       "split_ratio"] := rfl

theorem namedParams_keys_nodup (p : CtorParams) :
    ((namedParams p).map Prod.fst).Nodup := by
  rw [namedParams_keys]
  decide

/-! Helper lemmas about the sparse test-dataset loop and the train loop. -/

theorem sparseLoop_eq (lim : ℕ) (t : List String) :
    ∀ acc, sparseLoop lim t acc =
      acc ++ (t.take (lim - acc.length)).map (fun f => [f]) := by
  induction t with
  | nil =>
      intro acc
      simp [sparseLoop]
  | cons f rest ih =>
      intro acc
      rw [sparseLoop]
      by_cases h : lim ≤ acc.length
      · rw [if_pos h, Nat.sub_eq_zero_of_le h]
        simp
      · rw [if_neg h, ih (acc ++ [[f]])]
        have h2 : lim - acc.length = (lim - (acc ++ [[f]]).length) + 1 := by
          simp only [List.length_append, List.length_cons, List.length_nil]
          omega
        rw [h2, List.take_succ_cons]
        simp

theorem cacheAt_succ (dir : MetricDir) (scores : ℕ → ℚ) (ep : ℕ) :
    cacheAt dir scores (ep + 1) =
      (save_if_better dir (cacheAt dir scores ep) (ep + 1) (scores (ep + 1))).1 := rfl

theorem trainLoop_no_stop (dir : MetricDir) (pat : ℕ) (scores : ℕ → ℚ) :
    ∀ (fuel m : ℕ),
      (∀ j, m + 1 ≤ j → j < m + 1 + fuel → stopAt dir pat scores j = false) →
      trainLoop dir pat scores (cacheAt dir scores m) (m + 1) fuel = m + fuel := by
  intro fuel
  induction fuel with
  | zero =>
      intro m _
      rfl
  | succ fuel ih =>
      intro m hno
      have hstop : stopAt dir pat scores (m + 1) = false :=
        hno (m + 1) le_rfl (by omega)
      rw [trainLoop, ← cacheAt_succ dir scores m]
      rw [show early_stopping pat (cacheAt dir scores (m + 1)).best_epoch (m + 1)
            = stopAt dir pat scores (m + 1) from rfl, hstop]
      simp only [Bool.false_eq_true, if_false]
      have := ih (m + 1) (fun j hj1 hj2 => hno j (by omega) (by omega))
      rw [this]
      omega

theorem trainLoop_stops (dir : MetricDir) (pat : ℕ) (scores : ℕ → ℚ) :
    ∀ (fuel m s : ℕ), m + 1 ≤ s → s < m + 1 + fuel →
      (∀ j, m + 1 ≤ j → j < s → stopAt dir pat scores j = false) →
      stopAt dir pat scores s = true →
      trainLoop dir pat scores (cacheAt dir scores m) (m + 1) fuel = s := by
  intro fuel
  induction fuel with
  | zero =>
      intro m s h1 h2 _ _
      exact absurd h2 (by omega)
  | succ fuel ih =>
      intro m s h1 h2 hpre hs
      rw [trainLoop, ← cacheAt_succ dir scores m]
      rw [show early_stopping pat (cacheAt dir scores (m + 1)).best_epoch (m + 1)
            = stopAt dir pat scores (m + 1) from rfl]
      rcases Nat.eq_or_lt_of_le h1 with he | hlt
      · rw [← he] at hs
        rw [hs]
        simp [he]
      · have h0 : stopAt dir pat scores (m + 1) = false := hpre (m + 1) le_rfl hlt
        rw [h0]
        simp only [Bool.false_eq_true, if_false]
        exact ih (m + 1) s hlt (by omega) (fun j hj1 hj2 => hpre j (by omega) hj2) hs

/-- C1: save_checkpoint at a trainer tracking two models ("a" with state 10,
"b" with state 20) and one optimizer: the persisted mapping carries the
`source` tag, but its `models` entry holds only the LAST tracked model's state
(the per-model loop rebinds `checkpoint['models']` to a fresh empty dict on
every iteration), so loading the checkpoint into a fresh trainer with the same
keys restores "b" and "adam" but leaves "a" at its fresh state 0 instead of
the saved 10; with a single tracked model and optimizer the round trip does
reproduce the state. -/
theorem C1_save_checkpoint_keeps_last_model_only :
    (save_checkpoint "easytorch" [("a", (10 : ℕ)), ("b", 20)] [("adam", 30)]).source
        = "easytorch" ∧
    (save_checkpoint "easytorch" [("a", (10 : ℕ)), ("b", 20)] [("adam", 30)]).models
        = Option.some [("b", 20)] ∧
    load_checkpoint_et
        (save_checkpoint "easytorch" [("a", (10 : ℕ)), ("b", 20)] [("adam", 30)])
        [("a", 0), ("b", 0)] [("adam", 0)]
        = Option.some ([("a", 0), ("b", 20)], [("adam", 30)]) ∧
    load_checkpoint_et
        (save_checkpoint "easytorch" [("m", (10 : ℕ))] [("adam", 30)])
        [("m", 0)] [("adam", 0)]
        = Option.some ([("m", 10)], [("adam", 30)]) := by
  decide

/-- C4 (amended): construction never fails on an over-long GPU list, but the
clamping is gated on the verbose flag: with verbose enabled a request longer
than the available device count is clamped to `range(num_gpus)`, while with
verbose disabled the over-long list is left unchanged. -/
theorem C4_gpu_clamp_verbose_gated (n : ℕ) (g : List ℕ) :
    (n < g.length → clampGpus true n g = List.range n) ∧
    (g.length ≤ n → clampGpus true n g = g) ∧
    clampGpus false n g = g := by
  refine ⟨?_, ?_, ?_⟩
  · intro h
    simp [clampGpus, h]
  · intro h
    simp [clampGpus, Nat.not_lt.mpr h]
  · simp [clampGpus]

/-- C4 counterexample: with verbose disabled, a requested device list of
length 2 against 1 available device is NOT clamped, contradicting the claim
that an over-long list is always clamped. -/
theorem C4_counterexample :
    1 < ([0, 1] : List ℕ).length ∧
    clampGpus false 1 [0, 1] = [0, 1] ∧
    clampGpus false 1 [0, 1] ≠ List.range 1 := by
  decide

/-- C4 witness: the amended behaviour at concrete inputs: clamped when
verbose, length 2 over 1 device; unchanged when within bounds or when verbose
is off. -/
theorem C4_gpu_clamp_verbose_gated_witness :
    clampGpus true 1 [0, 1] = [0] ∧
    clampGpus true 2 [0, 1] = [0, 1] ∧
    clampGpus false 1 [0, 1] = [0, 1] :=
  ⟨((C4_gpu_clamp_verbose_gated 1 [0, 1]).1 (by decide)).trans (by decide),
   (C4_gpu_clamp_verbose_gated 2 [0, 1]).2.1 (by decide),
   (C4_gpu_clamp_verbose_gated 1 [0, 1]).2.2⟩

/-- C6 (amended): the dataspec resolution qualifies every key CONTAINING the
substring "dir" (in particular every key ending in "dir") by joining the value
under the dataset root, and leaves keys without that substring unchanged; the
spec's example {"img_dir": "images"} with root "/data" resolves to
"/data/images". -/
theorem C6_dataspec_dir_qualification (root : String) (d : Dspec) (k : String) :
    (pyContains k "dir" = true →
        lookupS (initDataspec root d) k = (lookupS d k).map (pathJoin root)) ∧
    (pyContains k "dir" = false →
        lookupS (initDataspec root d) k = lookupS d k) ∧
    initDataspec "/data" [("img_dir", "images")] = [("img_dir", "/data/images")] ∧
    strEnds "img_dir" "dir" = true := by
  refine ⟨?_, ?_, by decide, by decide⟩
  · intro ht
    induction d with
    | nil => rfl
    | cons p rest ih =>
        obtain ⟨k', v'⟩ := p
        rw [initDataspec_cons]
        by_cases hc : pyContains k' "dir" = true
        · rw [if_pos hc]
          by_cases hk : k' = k
          · subst hk
            simp [lookupS]
          · simp [lookupS, hk, ih]
        · rw [if_neg hc]
          by_cases hk : k' = k
          · subst hk
            exact absurd ht hc
          · simp [lookupS, hk, ih]
  · intro ht
    induction d with
    | nil => rfl
    | cons p rest ih =>
        obtain ⟨k', v'⟩ := p
        rw [initDataspec_cons]
        by_cases hc : pyContains k' "dir" = true
        · rw [if_pos hc]
          by_cases hk : k' = k
          · subst hk
            rw [ht] at hc
            cases hc
          · simp [lookupS, hk, ih]
        · rw [if_neg hc]
          by_cases hk : k' = k
          · subst hk
            simp [lookupS]
          · simp [lookupS, hk, ih]

/-- C6 counterexample: the key "dirty" does not end in "dir", yet its value is
qualified under the root (because the code tests substring containment, not
the suffix), contradicting the claim that only keys ending in "dir" change. -/
theorem C6_counterexample :
    initDataspec "/data" [("dirty", "x")] = [("dirty", "/data/x")] ∧
    strEnds "dirty" "dir" = false := by
  decide

/-- C6 witness: the amended behaviour at concrete inputs: "img_dir" is
qualified, "name" is left unchanged. -/
theorem C6_dataspec_dir_qualification_witness :
    lookupS (initDataspec "/data" [("img_dir", "images"), ("name", "n")]) "img_dir"
        = Option.some "/data/images" ∧
    lookupS (initDataspec "/data" [("img_dir", "images"), ("name", "n")]) "name"
        = Option.some "n" :=
  ⟨((C6_dataspec_dir_qualification "/data" [("img_dir", "images"), ("name", "n")]
        "img_dir").1 (by decide)).trans (by decide),
   ((C6_dataspec_dir_qualification "/data" [("img_dir", "images"), ("name", "n")]
        "name").2.1 (by decide)).trans (by decide)⟩

/-- C7: sparse test loading produces one single-file dataset per test file,
capped at load_limit — exactly min(n, load_limit) datasets, each a singleton
drawn from the test list — while non-sparse loading produces exactly one
dataset holding the whole test list. -/
theorem C7_sparse_test_dataset_count (lim : ℕ) (t : List String) :
    getTestDatasetList true lim t = (t.take lim).map (fun f => [f]) ∧
    (getTestDatasetList true lim t).length = min t.length lim ∧
    (∀ d, d ∈ getTestDatasetList true lim t → ∃ f, f ∈ t ∧ d = [f]) ∧
    getTestDatasetList false lim t = [t] := by
  have h1 : getTestDatasetList true lim t = (t.take lim).map (fun f => [f]) := by
    rw [getTestDatasetList, if_pos rfl, sparseLoop_eq]
    simp
  refine ⟨h1, ?_, ?_, rfl⟩
  · rw [h1]
    simp [List.length_take, Nat.min_comm]
  · intro d hd
    rw [h1] at hd
    obtain ⟨f, hf, hfd⟩ := List.mem_map.mp hd
    exact ⟨f, List.mem_of_mem_take hf, hfd.symm⟩

/-- C7 witness: the spec's example: a test list of 5 identifiers with sparse
loading yields 5 single-file datasets under the default load_limit of 1e11,
3 under load_limit 3, and one whole-list dataset without sparse loading. -/
theorem C7_sparse_test_dataset_count_witness :
    getTestDatasetList true 100000000000 ["f1", "f2", "f3", "f4", "f5"]
        = [["f1"], ["f2"], ["f3"], ["f4"], ["f5"]] ∧
    (getTestDatasetList true 3 ["f1", "f2", "f3", "f4", "f5"]).length = 3 ∧
    getTestDatasetList false 3 ["f1", "f2"] = [["f1", "f2"]] :=
  ⟨(C7_sparse_test_dataset_count 100000000000 ["f1", "f2", "f3", "f4", "f5"]).1.trans
      (by decide),
   ((C7_sparse_test_dataset_count 3 ["f1", "f2", "f3", "f4", "f5"]).2.1).trans
      (by decide),
   (C7_sparse_test_dataset_count 3 ["f1", "f2"]).2.2.2⟩

/-- C8: with DDP enabled, the run entry point spawns `test` — the debug print
stub — once per local device, not the `job` worker: no spawned worker ever
joins a process group or executes the per-fold run logic, contradicting the
claim that each worker joins the group and runs the fold logic. -/
theorem C8_ddp_spawns_print_stub :
    runDispatch true 2 = [testWorker, testWorker] ∧
    testWorker ≠ jobWorker ∧
    (∀ w, w ∈ runDispatch true 2 →
        WorkerAct.initProcessGroup ∉ w ∧ WorkerAct.runFold ∉ w) ∧
    runDispatch false 2 = [[WorkerAct.runFold]] := by
  decide

/-- C2: save_if_better updates the cached best score/epoch and persists a
checkpoint exactly when the monitored score beats-or-ties the cached best in
the configured direction (inclusive comparisons in both directions); at the
spec's concrete inputs: maximize with best 0.5 accepts 0.5 and rejects 0.4,
and minimize with best 1e11 accepts a first candidate 0.2. -/
theorem C2_save_if_better_inclusive (dir : MetricDir) (c : BestCache) (ep : ℕ)
    (sc : ℚ) :
    ((save_if_better dir c ep sc).2 = true ↔
        (dir = MetricDir.maximize ∧ sc ≥ c.best_score) ∨
        (dir = MetricDir.minimize ∧ sc ≤ c.best_score)) ∧
    ((save_if_better dir c ep sc).1 =
        if (save_if_better dir c ep sc).2 = true then BestCache.mk sc ep else c) ∧
    (save_if_better MetricDir.maximize ⟨1 / 2, 0⟩ 1 (1 / 2)).2 = true ∧
    (save_if_better MetricDir.maximize ⟨1 / 2, 0⟩ 1 (2 / 5)).2 = false ∧
    save_if_better MetricDir.minimize ⟨100000000000, 0⟩ 1 (1 / 5)
        = (⟨1 / 5, 1⟩, true) := by
  refine ⟨?_, ?_, ?_, ?_, ?_⟩
  · rw [save_if_better]
    split
    · simp_all
    · simp_all
  · rw [save_if_better]
    split
    · simp
    · simp
  · rw [save_if_better, if_pos (Or.inl ⟨rfl, le_refl _⟩)]
  · rw [save_if_better, if_neg ?_]
    rintro (⟨-, h⟩ | ⟨h, -⟩)
    · norm_num at h
    · exact MetricDir.noConfusion h
  · rw [save_if_better, if_pos (Or.inr ⟨rfl, by norm_num⟩)]

/-- C3: when the best-epoch bookkeeping settles at B (no improvement for
`patience` consecutive epochs, and no earlier early-stop trigger) and
B + patience is within the epoch budget, the train loop executes exactly
through epoch B + patience; when the trigger never fires within the budget it
runs all `epochs` iterations. -/
theorem C3_early_stopping_epoch (dir : MetricDir) (pat epochs B : ℕ)
    (scores : ℕ → ℚ) :
    ((∀ j, j < B + pat → 1 ≤ j → stopAt dir pat scores j = false) →
      (cacheAt dir scores (B + pat)).best_epoch = B →
      1 ≤ B + pat → B + pat ≤ epochs →
      trainLastEpoch dir pat scores epochs = B + pat) ∧
    ((∀ j, j < epochs + 1 → 1 ≤ j → stopAt dir pat scores j = false) →
      trainLastEpoch dir pat scores epochs = epochs) := by
  constructor
  · intro hpre hbest h1 h2
    have hs : stopAt dir pat scores (B + pat) = true := by
      rw [stopAt, hbest, early_stopping]
      simp only [decide_eq_true_eq]
      push_cast
      omega
    have h := trainLoop_stops dir pat scores epochs 0 (B + pat) (by omega) (by omega)
      (fun j hj1 hj2 => hpre j hj2 hj1) hs
    exact h
  · intro hpre
    have h := trainLoop_no_stop dir pat scores epochs 0
      (fun j hj1 hj2 => hpre j (by omega) hj1)
    simpa using h

/-- C3 witness: with scores improving only at epoch 1 (best_epoch settles at
1), patience 2 and budget 10 the loop stops exactly at epoch 3 = 1 + 2; with
patience 5 and budget 3 it never triggers and runs all 3 epochs. -/
theorem C3_early_stopping_epoch_witness :
    trainLastEpoch MetricDir.maximize 2 (fun ep => if ep = 1 then 1 else 0) 10 = 3 ∧
    trainLastEpoch MetricDir.maximize 5 (fun ep => if ep = 1 then 1 else 0) 3 = 3 :=
  ⟨(C3_early_stopping_epoch MetricDir.maximize 2 10 1
      (fun ep => if ep = 1 then 1 else 0)).1 (by decide) (by decide) (by decide)
      (by decide),
   (C3_early_stopping_epoch MetricDir.maximize 5 3 1
      (fun ep => if ep = 1 then 1 else 0)).2 (by decide)⟩

/-- C5 (amended): merging is last-write-wins in the order base mapping, then
TRUTHY explicit named parameters, then keyword arguments — keyword overrides
(including unrecognized keys) always win; a truthy explicit named parameter
beats the base mapping; but an explicit named parameter whose value is falsy
(None, False, 0, empty string or list) is ignored and the base mapping's value
is kept. -/
theorem C5_ctor_override_precedence (base : Config) (p : CtorParams)
    (kw : Config) (k : String) (v : PyVal) :
    ((kw.map Prod.fst).Nodup → (k, v) ∈ kw →
        lookupC (initArgs base p kw) k = Option.some v) ∧
    (k ∉ kw.map Prod.fst → (k, v) ∈ namedParams p → v.truthy = true →
        lookupC (initArgs base p kw) k = Option.some v) ∧
    (k ∉ kw.map Prod.fst → (k, v) ∈ namedParams p → v.truthy = false →
        lookupC (initArgs base p kw) k = lookupC base k) ∧
    (k ∉ kw.map Prod.fst → k ∉ (namedParams p).map Prod.fst →
        lookupC (initArgs base p kw) k = lookupC base k) := by
  refine ⟨?_, ?_, ?_, ?_⟩
  · intro hnd hm
    rw [initArgs]
    exact lookupC_updateAll_mem kw _ k v hnd hm
  · intro hk hm ht
    rw [initArgs, lookupC_updateAll_notmem kw _ k hk]
    exact lookupC_condFold_mem_truthy _ base k v (namedParams_keys_nodup p) hm ht
  · intro hk hm ht
    rw [initArgs, lookupC_updateAll_notmem kw _ k hk]
    exact lookupC_condFold_mem_falsy _ base k v (namedParams_keys_nodup p) hm ht
  · intro hk hn
    rw [initArgs, lookupC_updateAll_notmem kw _ k hk]
    exact lookupC_condFold_notmem _ base k hn

/-- C5 counterexample: the constructor guards every named override with
`if param:`, so an explicitly supplied falsy parameter (verbose=False) is
dropped and the merged configuration keeps the base mapping's True instead of
the explicit False, contradicting the claim that every explicitly supplied
named parameter wins over the base mapping. -/
theorem C5_counterexample :
    lookupC (initArgs [("verbose", PyVal.bool true)]
        ⟨PyVal.none, PyVal.none, PyVal.none, PyVal.none, PyVal.none, PyVal.none,
         PyVal.none, PyVal.none, PyVal.none, PyVal.none, PyVal.none,
         PyVal.bool false, PyVal.none, PyVal.none, PyVal.none, PyVal.none,
         PyVal.none, PyVal.none⟩ []) "verbose"
      = Option.some (PyVal.bool true) := by
  decide

/-- C5 witness: at a concrete merge — base has verbose=True and epochs=51 and
other=9, constructor supplies phase="train" (truthy, wins) and verbose=False
(falsy, ignored), keywords supply custom_key=7 (passes through) — the merged
configuration behaves as the amended claim states. -/
theorem C5_ctor_override_precedence_witness :
    lookupC (initArgs
        [("verbose", PyVal.bool true), ("epochs", PyVal.int 51), ("other", PyVal.int 9)]
        ⟨PyVal.str "train", PyVal.none, PyVal.none, PyVal.none, PyVal.none,
         PyVal.none, PyVal.none, PyVal.none, PyVal.none, PyVal.none, PyVal.none,
         PyVal.bool false, PyVal.none, PyVal.none, PyVal.none, PyVal.none,
         PyVal.none, PyVal.none⟩
        [("custom_key", PyVal.int 7)]) "custom_key" = Option.some (PyVal.int 7) ∧
    lookupC (initArgs
        [("verbose", PyVal.bool true), ("epochs", PyVal.int 51), ("other", PyVal.int 9)]
        ⟨PyVal.str "train", PyVal.none, PyVal.none, PyVal.none, PyVal.none,
         PyVal.none, PyVal.none, PyVal.none, PyVal.none, PyVal.none, PyVal.none,
         PyVal.bool false, PyVal.none, PyVal.none, PyVal.none, PyVal.none,
         PyVal.none, PyVal.none⟩
        [("custom_key", PyVal.int 7)]) "phase" = Option.some (PyVal.str "train") ∧
    lookupC (initArgs
        [("verbose", PyVal.bool true), ("epochs", PyVal.int 51), ("other", PyVal.int 9)]
        ⟨PyVal.str "train", PyVal.none, PyVal.none, PyVal.none, PyVal.none,
         PyVal.none, PyVal.none, PyVal.none, PyVal.none, PyVal.none, PyVal.none,
         PyVal.bool false, PyVal.none, PyVal.none, PyVal.none, PyVal.none,
         PyVal.none, PyVal.none⟩
        [("custom_key", PyVal.int 7)]) "verbose" = Option.some (PyVal.bool true) ∧
    lookupC (initArgs
        [("verbose", PyVal.bool true), ("epochs", PyVal.int 51), ("other", PyVal.int 9)]
        ⟨PyVal.str "train", PyVal.none, PyVal.none, PyVal.none, PyVal.none,
         PyVal.none, PyVal.none, PyVal.none, PyVal.none, PyVal.none, PyVal.none,
         PyVal.bool false, PyVal.none, PyVal.none, PyVal.none, PyVal.none,
         PyVal.none, PyVal.none⟩
        [("custom_key", PyVal.int 7)]) "other" = Option.some (PyVal.int 9) :=
  ⟨(C5_ctor_override_precedence _ _ _ "custom_key" (PyVal.int 7)).1
      (by decide) (by decide),
   (C5_ctor_override_precedence _ _ _ "phase" (PyVal.str "train")).2.1
      (by decide) (by decide) (by decide),
   ((C5_ctor_override_precedence _ _ _ "verbose" (PyVal.bool false)).2.2.1
      (by decide) (by decide) (by decide)).trans (by decide),
   ((C5_ctor_override_precedence _ _ _ "other" (PyVal.int 0)).2.2.2
      (by decide) (by decide)).trans (by decide)⟩

/-- C9: metrics accumulation is commutative and associative on the underlying
counts, so accumulating A then B into a zeroed instance yields the same
derived precision, recall, F1 and accuracy as accumulating B then A. -/
theorem C9_accumulate_comm_assoc (a b c : Prf1a) :
    a.accumulate b = b.accumulate a ∧
    (a.accumulate b).accumulate c = a.accumulate (b.accumulate c) ∧
    ((Prf1a.new.accumulate a).accumulate b).precision
        = ((Prf1a.new.accumulate b).accumulate a).precision ∧
    ((Prf1a.new.accumulate a).accumulate b).recall
        = ((Prf1a.new.accumulate b).accumulate a).recall ∧
    ((Prf1a.new.accumulate a).accumulate b).f1
        = ((Prf1a.new.accumulate b).accumulate a).f1 ∧
    ((Prf1a.new.accumulate a).accumulate b).accuracy
        = ((Prf1a.new.accumulate b).accumulate a).accuracy := by
  have hAB : (Prf1a.new.accumulate a).accumulate b
      = (Prf1a.new.accumulate b).accumulate a := by
    simp only [Prf1a.accumulate, Prf1a.new, Prf1a.mk.injEq]
    omega
  refine ⟨?_, ?_, by rw [hAB], by rw [hAB], by rw [hAB], by rw [hAB]⟩
  · simp only [Prf1a.accumulate, Prf1a.mk.injEq]
    omega
  · simp only [Prf1a.accumulate, Prf1a.mk.injEq]
    omega

/-- C10: the iteration-result fallback substitutes a fresh zeroed metrics
object whenever the `metrics` entry is missing or falsy, so the per-batch
accumulation never fails on `metrics`; the `averages` entry has no such
fallback — when it is absent the step fails. -/
theorem C10_metrics_fallback (μ α : Type) (zeroed : μ) (accumM : μ → μ → μ)
    (accumA : α → α → α) (m : μ) (a : α) (it : ItResult μ α) :
    (fixupMetrics zeroed it).metrics = Option.some (it.metrics.getD zeroed) ∧
    (it.metrics = Option.none →
        accumStep zeroed accumM accumA m a it
          = it.averages.map (fun ia => (accumM m zeroed, accumA a ia))) ∧
    (it.averages = Option.none →
        accumStep zeroed accumM accumA m a it = Option.none) ∧
    (∀ im ia, it.metrics = Option.some im → it.averages = Option.some ia →
        accumStep zeroed accumM accumA m a it
          = Option.some (accumM m im, accumA a ia)) := by
  obtain ⟨mm, aa⟩ := it
  cases mm <;> cases aa <;> simp [fixupMetrics, accumStep]

/-- C10 witness: with natural-number stand-ins (zeroed = 0, accumulation by
addition): a missing metrics entry is replaced by the zeroed object and the
step succeeds; a missing averages entry makes the step fail; both present
accumulate normally. -/
theorem C10_metrics_fallback_witness :
    accumStep 0 Nat.add Nat.add 5 7 (ItResult.mk Option.none (Option.some 3))
        = Option.some (5, 10) ∧
    accumStep 0 Nat.add Nat.add 5 7 (ItResult.mk Option.none Option.none)
        = Option.none ∧
    accumStep 0 Nat.add Nat.add 5 7 (ItResult.mk (Option.some 2) (Option.some 3))
        = Option.some (7, 10) :=
  ⟨((C10_metrics_fallback ℕ ℕ 0 Nat.add Nat.add 5 7 _).2.1 rfl).trans (by decide),
   (C10_metrics_fallback ℕ ℕ 0 Nat.add Nat.add 5 7 _).2.2.1 rfl,
   (C10_metrics_fallback ℕ ℕ 0 Nat.add Nat.add 5 7 _).2.2.2 2 3 rfl rfl⟩

end EasyTorchSpec
